import Mathlib

/-!
Verification of the GEDCOM parsing and person-matching core of the
Streamlit-GEDCOM repository.

The development shallowly embeds, from the source files:
  * the GEDCOM line parser and the dataset projection of `apps/AllThree.py`
    (`parse_gedcom`, `generate_individual_dataset`, `format_gedcom_date`,
    `get_year`, `normalize_name`, `calculate_match_score`, and the
    birth-year-bucketed comparison loop of its STEP 3 section), and
  * the threshold-style comparison of `apps/MissingPeople.py`
    (`parse_date`, `compare_individuals`).

External collaborators (the `thefuzz`/`fuzzywuzzy` similarity library and
pandas date handling) are modelled by executable Lean functions, documented
at their definitions.  Python floats are modelled by exact rationals and
Python dicts by insertion-ordered association lists.
-/

/-- Longest common subsequence length of two character lists.  This is the
model of the external fuzzy-matching library's edit-based similarity core:
the indel distance used by `thefuzz`/`rapidfuzz` (and `python-Levenshtein`)
satisfies `dist s1 s2 = |s1| + |s2| - 2 * lcs s1 s2`. -/
def lcsAux (a : Char) (lcsTail : List Char → Nat) : List Char → Nat
  | [] => 0
  | b :: bs => if a = b then lcsTail bs + 1 else max (lcsTail (b :: bs)) (lcsAux a lcsTail bs)

def lcs : List Char → List Char → Nat
  | [], _ => 0
  | a :: as, b => lcsAux a (lcs as) b

theorem lcs_nil_left (b : List Char) : lcs [] b = 0 := rfl

theorem lcs_nil_right (a : List Char) : lcs a [] = 0 := by
  cases a <;> rfl

theorem lcs_cons_cons (a b : Char) (as bs : List Char) :
    lcs (a :: as) (b :: bs) =
      if a = b then lcs as bs + 1 else max (lcs as (b :: bs)) (lcs (a :: as) bs) := rfl

theorem lcs_self (l : List Char) : lcs l l = l.length := by
  induction l with
  | nil => simp [lcs]
  | cons x xs ih => simp [lcs_cons_cons, ih]

theorem lcs_le_left (a b : List Char) : lcs a b ≤ a.length := by
  induction a generalizing b with
  | nil => simp [lcs_nil_left]
  | cons x xs ih =>
    induction b with
    | nil => simp [lcs_nil_right]
    | cons y ys ihb =>
      rw [lcs_cons_cons]
      split
      · exact Nat.succ_le_succ (ih ys)
      · exact max_le ((ih (y :: ys)).trans (Nat.le_succ _)) ihb

theorem lcs_le_right (a b : List Char) : lcs a b ≤ b.length := by
  induction b generalizing a with
  | nil => simp [lcs_nil_right]
  | cons y ys ih =>
    induction a with
    | nil => simp [lcs_nil_left]
    | cons x xs iha =>
      rw [lcs_cons_cons]
      split
      · exact Nat.succ_le_succ (ih xs)
      · exact max_le iha ((ih (x :: xs)).trans (Nat.le_succ _))

/-- Round-to-nearest with ties to even of the fraction `num / den`
(`den > 0` expected): the rounding performed by Python's builtin `round`,
which the fuzzy library applies to its `0..100` similarity scores. -/
def pyRound2 (num den : Nat) : Nat :=
  if 2 * (num % den) < den then num / den
  else if den < 2 * (num % den) then num / den + 1
  else if (num / den) % 2 = 0 then num / den else num / den + 1

theorem pyRound2_mul_self (k den : Nat) (hden : 0 < den) :
    pyRound2 (k * den) den = k := by
  unfold pyRound2
  have hq : k * den / den = k := Nat.mul_div_cancel k hden
  have hr : k * den % den = 0 := Nat.mul_mod_left k den
  simp [hq, hr, hden]

theorem pyRound2_le (num den k : Nat) (hden : 0 < den) (h : num ≤ k * den) :
    pyRound2 num den ≤ k := by
  have hq : num / den ≤ k := by
    have h1 := Nat.div_le_div_right (c := den) h
    simpa [Nat.mul_div_cancel _ hden] using h1
  have hstrict : num % den ≠ 0 → num / den < k := by
    intro hr
    by_contra hge
    push_neg at hge
    have hqk : num / den = k := le_antisymm hq hge
    have hmod := Nat.div_add_mod num den
    rw [hqk] at hmod
    rw [Nat.mul_comm] at h
    omega
  unfold pyRound2
  split_ifs with h1 h2 h3
  · exact hq
  · exact hstrict (by omega)
  · exact hq
  · exact hstrict (by omega)

/-- Model of `fuzz.ratio` from `thefuzz`/`fuzzywuzzy`: the similarity score
`round(100 * (l1 + l2 - dist) / (l1 + l2))` with the indel distance
`dist = l1 + l2 - 2 * lcs`, i.e. `round(200 * lcs / (l1 + l2))`, and `100`
when both strings are empty. -/
def fuzz_ratio (s1 s2 : String) : Nat :=
  if s1.length + s2.length = 0 then 100
  else pyRound2 (200 * lcs s1.data s2.data) (s1.length + s2.length)

theorem fuzz_ratio_self (s : String) : fuzz_ratio s s = 100 := by
  unfold fuzz_ratio
  by_cases h : s.length + s.length = 0
  · simp [h]
  · have hpos : 0 < s.length + s.length := Nat.pos_of_ne_zero h
    have hlen : lcs s.data s.data = s.length := lcs_self s.data
    have he : 200 * lcs s.data s.data = 100 * (s.length + s.length) := by
      rw [hlen]; ring
    simp only [h, if_false, he]
    exact pyRound2_mul_self 100 _ hpos

theorem fuzz_ratio_le_100 (s1 s2 : String) : fuzz_ratio s1 s2 ≤ 100 := by
  unfold fuzz_ratio
  by_cases h : s1.length + s2.length = 0
  · simp [h]
  · have hpos : 0 < s1.length + s2.length := Nat.pos_of_ne_zero h
    simp only [h, if_false]
    apply pyRound2_le _ _ _ hpos
    have h1 : lcs s1.data s2.data ≤ s1.length := lcs_le_left s1.data s2.data
    have h2 : lcs s1.data s2.data ≤ s2.length := lcs_le_right s1.data s2.data
    omega

/-- Split a list of characters at the first occurrence of `c`, if any. -/
def splitOnceChar (c : Char) : List Char → Option (List Char × List Char)
  | [] => none
  | x :: xs =>
      if x = c then some ([], xs)
      else match splitOnceChar c xs with
        | none => none
        | some (l, r) => some (x :: l, r)

/-- Python `line.split(" ", 2)`: split on single spaces, at most twice, so the
third part keeps any remaining spaces (including leading ones from runs). -/
def pySplit2 (s : String) : List String :=
  match splitOnceChar ' ' s.data with
  | none => [s]
  | some (p0, rest) =>
      match splitOnceChar ' ' rest with
      | none => [String.mk p0, String.mk rest]
      | some (p1, p2) => [String.mk p0, String.mk p1, String.mk p2]

/-- Python `str.lower()`, modelled characterwise. -/
def pyLower (s : String) : String :=
  String.mk (s.data.map Char.toLower)

/-- Python `str.strip()` with no argument: remove leading and trailing
whitespace. -/
def pyTrim (s : String) : String :=
  String.mk (((s.data.dropWhile (fun c => c.isWhitespace)).reverse.dropWhile
    (fun c => c.isWhitespace)).reverse)

/-- Split a character list at every occurrence of characters satisfying `p`
(keeping empty pieces), the common core of the string splitting below. -/
def splitPredL (p : Char → Bool) : List Char → List (List Char)
  | [] => [[]]
  | x :: xs =>
      let r := splitPredL p xs
      if p x then [] :: r
      else
        match r with
        | h :: t => (x :: h) :: t
        | [] => [[x]]

/-- Python `str.split()` with no argument: split on whitespace runs and drop
empty pieces. -/
def splitWs (s : String) : List String :=
  ((splitPredL (fun c => c.isWhitespace) s.data).filter (fun p => p ≠ [])).map String.mk

/-- Python `str.strip('@')`: remove leading and trailing `@` characters. -/
def stripAts (s : String) : String :=
  String.mk (((s.data.dropWhile (fun c => c = '@')).reverse.dropWhile
    (fun c => c = '@')).reverse)

/-- Python `int(...)` on a token, as used for GEDCOM line levels: an optional
sign followed by one or more digits; `none` models a `ValueError`. -/
def pyInt (s : String) : Option Int :=
  let digits (l : List Char) : Option Nat :=
    if l ≠ [] ∧ l.all (fun c => c.isDigit) then
      some (l.foldl (fun n c => 10 * n + (c.toNat - '0'.toNat)) 0)
    else none
  match s.data with
  | '-' :: rest => (digits rest).map (fun n => -(n : Int))
  | '+' :: rest => (digits rest).map (fun n => (n : Int))
  | l => (digits l).map (fun n => (n : Int))

/-- Lexicographic comparison of strings by character code points, the order
used by Python's `sorted` on strings. -/
def charsLe : List Char → List Char → Bool
  | [], _ => true
  | _ :: _, [] => false
  | a :: as, b :: bs => if a = b then charsLe as bs else decide (a.toNat < b.toNat)

def insertSorted (x : String) : List String → List String
  | [] => [x]
  | y :: ys => if charsLe x.data y.data then x :: y :: ys else y :: insertSorted x ys

/-- Stable insertion sort on strings, modelling Python's `sorted`. -/
def sortStrings : List String → List String
  | [] => []
  | x :: xs => insertSorted x (sortStrings xs)

/-- Model of the fuzzy library's `full_process`: keep alphanumeric characters
lowercased, replace the rest by spaces, and trim. -/
def fullProcess (s : String) : String :=
  pyTrim (String.mk (s.data.map (fun c => if c.isAlphanum then c.toLower else ' ')))

/-- Model of `fuzz.token_sort_ratio`: apply `full_process`, sort the
whitespace-separated tokens, rejoin them with single spaces, and compare with
`fuzz.ratio`. -/
def token_sort_ratio (s1 s2 : String) : Nat :=
  fuzz_ratio (" ".intercalate (sortStrings (splitWs (fullProcess s1))))
    (" ".intercalate (sortStrings (splitWs (fullProcess s2))))

theorem token_sort_ratio_self (s : String) : token_sort_ratio s s = 100 :=
  fuzz_ratio_self _

theorem token_sort_ratio_le_100 (s1 s2 : String) : token_sort_ratio s1 s2 ≤ 100 :=
  fuzz_ratio_le_100 _ _

/-- Python `str(x)` applied to an optional string field of a row: `None`
prints as `"None"`. -/
def pyStr : Option String → String
  | none => "None"
  | some s => s

/-- Record contents: an insertion-ordered mapping from tag to the list of its
values, modelling the Python dict-of-lists used by `parse_gedcom` in
`apps/AllThree.py`. -/
def Records : Type := List (String × List String)

instance : DecidableEq Records := by
  unfold Records
  infer_instance

instance : Membership (String × List String) Records := by
  unfold Records
  infer_instance

instance {e a : Type} [DecidableEq e] [DecidableEq a] : DecidableEq (Except e a) :=
  fun x y =>
    match x, y with
    | .error e1, .error e2 =>
        if h : e1 = e2 then .isTrue (congrArg Except.error h)
        else .isFalse (fun hc => h (Except.error.inj hc))
    | .error _, .ok _ => .isFalse (fun hc => Except.noConfusion hc)
    | .ok _, .error _ => .isFalse (fun hc => Except.noConfusion hc)
    | .ok v1, .ok v2 =>
        if h : v1 = v2 then .isTrue (congrArg Except.ok h)
        else .isFalse (fun hc => h (Except.ok.inj hc))

/-- Look a key up in an association list (Python `d.get(k)` / `k in d`). -/
def lookupA {α : Type} : List (String × α) → String → Option α
  | [], _ => none
  | (k, v) :: rest, key => if k = key then some v else lookupA rest key

/-- Python dict assignment `d[k] = v`: replace the value at `k` keeping its
position, or append a new entry at the end. -/
def setA {α : Type} : List (String × α) → String → α → List (String × α)
  | [], key, v => [(key, v)]
  | (k, w) :: rest, key, v =>
      if k = key then (k, v) :: rest else (k, w) :: setA rest key v

def lookupR (r : Records) (tag : String) : Option (List String) :=
  lookupA r tag

def setR (r : Records) (tag : String) (vs : List String) : Records :=
  setA r tag vs

/-- Python truthiness of an optional string (`None` and `""` are falsy). -/
def pyTruthyStr : Option String → Bool
  | none => false
  | some s => s ≠ ""

/-- Parser state of `parse_gedcom` (`apps/AllThree.py`): the accumulated
individuals and families, the open record (id, type, tag mapping), and the
`last_tag_info` continuation target (tag and index of its last value). -/
structure ParseState where
  individuals : List (String × Records)
  families : List (String × Records)
  currentId : Option String
  currentType : Option String
  records : Records
  lastTag : Option (String × Nat)
deriving DecidableEq

def initParseState : ParseState :=
  { individuals := [], families := [], currentId := none, currentType := none,
    records := [], lastTag := none }

/-- Flush the open record into `individuals` or `families`, as `parse_gedcom`
does when a new level-0 line starts or input ends.  Mirrors the Python
truthiness test `if current_id and current_type`. -/
def finalizeRecord (st : ParseState) : ParseState :=
  match st.currentId, st.currentType with
  | some i, some ty =>
      if i ≠ "" then
        if ty = "INDI" then { st with individuals := setA st.individuals i st.records }
        else if ty = "FAM" then { st with families := setA st.families i st.records }
        else st
      else st
  | _, _ => st

/-- Handling of a level-0 line: finalize the open record, then open a new one
when the third token is `INDI` or `FAM`, otherwise close without opening. -/
def handleLevel0 (st : ParseState) (parts : List String) : ParseState :=
  let st := finalizeRecord st
  match parts.get? 2 with
  | some p2 =>
      if p2 = "INDI" ∨ p2 = "FAM" then
        { st with currentId := some (stripAts ((parts.get? 1).getD "")),
                  currentType := some p2, records := [], lastTag := none }
      else { st with currentId := none, currentType := none }
  | none => { st with currentId := none, currentType := none }

/-- Level-1 line: append the value in a fresh slot of `records[tag]` and set
`last_tag_info` to that (tag, index). -/
def applyLevel1 (st : ParseState) (tag value : String) : ParseState :=
  let vs := (lookupR st.records tag).getD []
  let vs := vs ++ [value]
  { st with records := setR st.records tag vs, lastTag := some (tag, vs.length - 1) }

/-- Level `>1` line with `last_tag_info = (pt, pidx)`: `CONC` appends the
value directly to `records[pt][pidx]`, `CONT` appends a newline and the
value, any other tag appends the value as a new entry of the compound tag
`pt ++ "_" ++ tag`.  A missing key or index models the `KeyError`/`IndexError`
the Python code would raise (unreachable from the initial state). -/
def applyDeep (st : ParseState) (tag value pt : String) (pidx : Nat) :
    Except Unit ParseState :=
  if tag = "CONC" then
    match lookupR st.records pt with
    | none => .error ()
    | some vs =>
        match vs.get? pidx with
        | none => .error ()
        | some v => .ok { st with records := setR st.records pt (vs.set pidx (v ++ value)) }
  else if tag = "CONT" then
    match lookupR st.records pt with
    | none => .error ()
    | some vs =>
        match vs.get? pidx with
        | none => .error ()
        | some v =>
            .ok { st with records := setR st.records pt (vs.set pidx (v ++ "\n" ++ value)) }
  else
    let ft := pt ++ "_" ++ tag
    .ok { st with records := setR st.records ft (((lookupR st.records ft).getD []) ++ [value]) }

/-- Dispatch on the level of a tagged line once the level-0 bookkeeping and
the open-record check are done, mirroring the `if level == 1 / elif level > 1
and last_tag_info` chain of `parse_gedcom`. -/
def dispatchTagged (st : ParseState) (level : Int) (tag value : String) :
    Except Unit ParseState :=
  if level = 1 then .ok (applyLevel1 st tag value)
  else if level > 1 then
    match st.lastTag with
    | none => .ok st
    | some (pt, pidx) => applyDeep st tag value pt pidx
  else .ok st

/-- One line of `parse_gedcom` (`apps/AllThree.py`): strip the line, skip
blanks and lines whose first token is not an integer, handle level 0, skip
the rest when no record is open, then dispatch on the level.  The `.error`
case models the uncaught `IndexError` on `parts[1]` for a one-token line
while a record is open. -/
def processLine (st : ParseState) (rawLine : String) : Except Unit ParseState :=
  let line := pyTrim rawLine
  if line = "" then .ok st
  else
    let parts := pySplit2 line
    match pyInt (parts.headD "") with
    | none => .ok st
    | some level =>
        let st := if level = 0 then handleLevel0 st parts else st
        if pyTruthyStr st.currentId then
          match parts.get? 1 with
          | none => .error ()
          | some p1 => dispatchTagged st level (pyTrim p1) ((parts.get? 2).getD "")
        else .ok st

/-- `parse_gedcom(file_contents)` from `apps/AllThree.py`: processes the
stripped input line by line and returns the individuals and families
mappings.  Lines are split on newline characters (the Python code uses
`splitlines`; each line is stripped immediately, so `\r\n` input agrees). -/
def parse_gedcom (contents : String) :
    Except Unit (List (String × Records) × List (String × Records)) := do
  let st ← (((splitPredL (fun c => c = '\n') (pyTrim contents).data).map String.mk).foldlM
    processLine initParseState)
  let st := finalizeRecord st
  return (st.individuals, st.families)

/-- Calendar date, used to model both pandas timestamps and Python
`datetime` values. -/
structure PDate where
  year : Int
  month : Nat
  day : Nat
deriving DecidableEq

/-- Month number of a lowercase 3-letter English month abbreviation, as
`strptime`'s `%b` accepts (case-insensitively). -/
def monthNum (s : String) : Option Nat :=
  if s = "jan" then some 1 else if s = "feb" then some 2
  else if s = "mar" then some 3 else if s = "apr" then some 4
  else if s = "may" then some 5 else if s = "jun" then some 6
  else if s = "jul" then some 7 else if s = "aug" then some 8
  else if s = "sep" then some 9 else if s = "oct" then some 10
  else if s = "nov" then some 11 else if s = "dec" then some 12
  else none

def isLeap (y : Int) : Bool :=
  y % 4 = 0 ∧ (y % 100 ≠ 0 ∨ y % 400 = 0)

def daysInMonth (y : Int) (m : Nat) : Nat :=
  if m = 2 then (if isLeap y then 29 else 28)
  else if m = 4 ∨ m = 6 ∨ m = 9 ∨ m = 11 then 30
  else 31

def natFromDigits (s : String) : Option Nat :=
  if s.data ≠ [] ∧ s.data.all (fun c => c.isDigit) then
    some (s.data.foldl (fun n c => 10 * n + (c.toNat - '0'.toNat)) 0)
  else none

/-- Model of `pd.to_datetime(s, errors='coerce')` for the shapes of date
string this code base feeds it: a bare 4-digit year (parsed as January 1 of
that year), a normalized `YYYY-MM-DD` date, and a GEDCOM-style
`D MON YYYY` date with an English month abbreviation.  Anything else
coerces to `NaT`, modelled as `none`. -/
def pdToDatetime (s : String) : Option PDate :=
  if s.data.length = 4 ∧ s.data.all (fun c => c.isDigit) then
    (natFromDigits s).map (fun y => { year := (y : Int), month := 1, day := 1 })
  else
    match (splitPredL (fun c => c = '-') s.data).map String.mk with
    | [ys, ms, ds] =>
        match natFromDigits ys, natFromDigits ms, natFromDigits ds with
        | some y, some m, some d =>
            if ys.length = 4 ∧ 1 ≤ m ∧ m ≤ 12 ∧ 1 ≤ d ∧ d ≤ 31 then
              some { year := (y : Int), month := m, day := d }
            else none
        | _, _, _ => none
    | _ =>
        match splitWs s with
        | [ds, ms, ys] =>
            match natFromDigits ds, monthNum (pyLower ms), natFromDigits ys with
            | some d, some m, some y =>
                if 1 ≤ y ∧ 1 ≤ d ∧ d ≤ daysInMonth (y : Int) m then
                  some { year := (y : Int), month := m, day := d }
                else none
            | _, _, _ => none
        | _ => none

def pad2 (n : Nat) : String :=
  if n < 10 then "0" ++ toString n else toString n

def pad4 (y : Int) : String :=
  let n := y.toNat
  if n < 10 then "000" ++ toString n
  else if n < 100 then "00" ++ toString n
  else if n < 1000 then "0" ++ toString n
  else toString n

/-- `Timestamp.strftime('%Y-%m-%d')`. -/
def formatPDate (d : PDate) : String :=
  pad4 d.year ++ "-" ++ pad2 d.month ++ "-" ++ pad2 d.day

/-- Qualifier keywords stripped by `format_gedcom_date`'s first regex
`^(ABT|EST|CAL|INT|BEF|AFT|FROM|TO)\s+` (case-insensitive). -/
def dateQualifiers : List String :=
  ["ABT", "EST", "CAL", "INT", "BEF", "AFT", "FROM", "TO"]

def charsUpper (l : List Char) : List Char :=
  l.map (fun c => c.toUpper)

/-- Whether a character list starts with a whitespace character. -/
def headIsWs (l : List Char) : Bool :=
  match l.head? with
  | some c => c.isWhitespace
  | none => false

/-- Strip one leading qualifier keyword followed by whitespace (the
whitespace run is consumed greedily, as `\s+` does). -/
def stripQual (s : String) : String :=
  let cs := s.data
  let rec go : List String → String
    | [] => s
    | k :: ks =>
        let kl := k.data.length
        if charsUpper (cs.take kl) = k.data ∧ headIsWs (cs.drop kl) then
          String.mk ((cs.drop kl).dropWhile (fun c => c.isWhitespace))
        else go ks
  go dateQualifiers

/-- Test whether `l` begins with a whitespace run followed by `AND`
(case-insensitive), as the `\s+AND` part of the `BET` regex requires. -/
def wsAndPrefix (l : List Char) : Bool :=
  match l with
  | c :: _ =>
      if c.isWhitespace then
        charsUpper ((l.dropWhile (fun ch => ch.isWhitespace)).take 3) = ['A', 'N', 'D']
      else false
  | [] => false

def findBetSplit : Nat → List Char → Option (List Char)
  | _, [] => none
  | taken, c :: rest =>
      if wsAndPrefix (c :: rest) then some []
      else match findBetSplit (taken + 1) rest with
        | some g => some (c :: g)
        | none => none

/-- Model of the second regex of `format_gedcom_date`,
`re.sub(r'^BET\s+(.*?)\s+AND.*', r'\1', s, flags=IGNORECASE)`: when the
string starts with `BET` plus whitespace and a later whitespace-`AND` occurs,
the whole string is replaced by the shortest first bound; otherwise the
string is unchanged.  (Degenerate inputs whose first bound would be empty or
contain newlines are not modelled exactly; no date in scope has that form.) -/
def betFirst (s : String) : String :=
  let cs := s.data
  if charsUpper (cs.take 3) = ['B', 'E', 'T'] ∧ headIsWs (cs.drop 3) then
    let rest := (cs.drop 3).dropWhile (fun c => c.isWhitespace)
    match findBetSplit 0 rest with
    | some g => if wsAndPrefix rest then String.mk [] else String.mk g
    | none => s
  else s

/-- `format_gedcom_date(date_str)` from `generate_individual_dataset` in
`apps/AllThree.py`: `None`/`NaN` maps to `None`; otherwise strip a leading
qualifier, reduce a `BET ... AND ...` range to its first bound, and attempt
a pandas datetime parse, formatting successes as `YYYY-MM-DD` and coercion
failures (including `NaT.strftime` raising) to `None`. -/
def format_gedcom_date : Option String → Option String
  | none => none
  | some s =>
      let cleaned := betFirst (stripQual (pyTrim s))
      (pdToDatetime cleaned).map formatPDate

/-- `get_year(date_str)` from `apps/AllThree.py`: `None`/`NaN` gives `None`,
otherwise the year of the pandas-parsed date, with parse failures giving
`None` (the `except` branch / `NaT`). -/
def get_year (dateStr : Option String) : Option Int :=
  match dateStr with
  | none => none
  | some s => (pdToDatetime s).map (fun d => d.year)

/-- Projected dataset row built by `generate_individual_dataset`
(`apps/AllThree.py`); `none` models a Python `None` cell. -/
structure PersonRow where
  idNumber : String
  fullName : Option String
  gender : Option String
  birthDate : Option String
  deathDate : Option String
  fatherName : Option String
  motherName : Option String
  fsftid : Option String
deriving DecidableEq

/-- Python `data.get(tag, [None])[0]` for a dict-of-lists record: the first
stored value, or `None` when the tag is absent.  (The parser never stores an
empty list, so the `[0]` never fails on parser output.) -/
def optFirst (data : Records) (tag : String) : Option String :=
  match lookupR data tag with
  | some (v :: _) => some v
  | _ => none

/-- Python `(x or "")` for an optional string. -/
def orEmpty : Option String → String
  | none => ""
  | some s => s

/-- `get_person_name(ind_id)` from `generate_individual_dataset`: `None` and
`""` give `None`; otherwise the individual's first `NAME` value (or `""`)
with the GEDCOM `/` surname markers removed.  The `_name_cache` memoization
of the source is semantically transparent and omitted. -/
def get_person_name (individuals : List (String × Records)) :
    Option String → Option String
  | none => none
  | some indId =>
      if indId = "" then none
      else
        let clean := stripAts indId
        let raw :=
          match lookupR ((lookupA individuals clean).getD []) "NAME" with
          | some (v :: _) => v
          | _ => ""
        some (String.mk (raw.data.filter (fun c => c ≠ '/')))

/-- One row of `generate_individual_dataset` for the individual `(indId,
data)`: resolve the first `FAMC` to a family, its `HUSB`/`WIFE` to parent
ids, and their names; normalize the first `BIRT_DATE`/`DEAT_DATE`.  (The
family lookup is written unconditionally here; the Python code performs it
only when `famc_id` is truthy, with the same parent-id results.) -/
def rowFor (individuals families : List (String × Records))
    (indId : String) (data : Records) : PersonRow :=
  let famcId := stripAts (orEmpty (optFirst data "FAMC"))
  let familyData := (lookupA families famcId).getD []
  let fatherId : Option String :=
    if famcId ≠ "" then some (stripAts (orEmpty (optFirst familyData "HUSB"))) else none
  let motherId : Option String :=
    if famcId ≠ "" then some (stripAts (orEmpty (optFirst familyData "WIFE"))) else none
  { idNumber := indId
    fullName := get_person_name individuals (some indId)
    gender := optFirst data "SEX"
    birthDate := format_gedcom_date (optFirst data "BIRT_DATE")
    deathDate := format_gedcom_date (optFirst data "DEAT_DATE")
    fatherName := get_person_name individuals fatherId
    motherName := get_person_name individuals motherId
    fsftid := optFirst data "_FSFTID" }

/-- `generate_individual_dataset(individuals, families)` from
`apps/AllThree.py`: one projected row per individual, in order. -/
def generate_individual_dataset (individuals families : List (String × Records)) :
    List PersonRow :=
  individuals.map (fun p => rowFor individuals families p.1 p.2)

/-- `normalize_name(name)` from `apps/AllThree.py`: lowercase, strip, drop
periods and commas; with three or more words, collapse every middle word to
its initial. -/
def normalize_name (name : String) : String :=
  let n := pyTrim (pyLower name)
  let n := String.mk (n.data.filter (fun c => ¬ (c = '.' ∨ c = ',')))
  let parts := splitWs n
  if parts.length ≤ 2 then n
  else
    let first := parts.headD ""
    let last := parts.getLastD ""
    let middleInitials := (parts.drop 1).dropLast.map (fun p => String.mk (p.data.take 1))
    pyTrim (first ++ " " ++ " ".intercalate middleInitials ++ " " ++ last)

/-- Factor weights of `calculate_match_score`; the Python default is
`{'name': 40, 'birth': 25, 'death': 25, 'parents': 10}`. -/
structure Weights where
  name : ℚ
  birth : ℚ
  death : ℚ
  parents : ℚ
deriving DecidableEq

def defaultWeights : Weights :=
  { name := 40, birth := 25, death := 25, parents := 10 }

/-- Per-factor breakdown returned by `calculate_match_score` (its `details`
dict plus the total). -/
structure ScoreDetails where
  nameScore : Nat
  namePoints : ℚ
  birthDiff : Option Nat
  birthPoints : ℚ
  deathDiff : Option Nat
  deathPoints : ℚ
  parentPoints : ℚ
  totalScore : ℚ
deriving DecidableEq

/-- Date factor of `calculate_match_score`: scored only when both values are
non-null (`pd.notna`) and both years resolve to a truthy (nonzero) value;
then full weight at 0 years difference, 0.8x at 1, 0.6x at 2, 0.3x up to 5,
0 beyond; otherwise `(None, 0)`. -/
def datePart (a b : Option String) (wt : ℚ) : Option Nat × ℚ :=
  match a, b with
  | some _, some _ =>
      match get_year a, get_year b with
      | some y1, some y2 =>
          if y1 ≠ 0 ∧ y2 ≠ 0 then
            let diff := (y1 - y2).natAbs
            (some diff,
              if diff = 0 then wt
              else if diff = 1 then wt * (8 / 10)
              else if diff = 2 then wt * (6 / 10)
              else if diff ≤ 5 then wt * (3 / 10)
              else 0)
          else (none, 0)
      | _, _ => (none, 0)
  | _, _ => (none, 0)

/-- Parent-name half-factor of `calculate_match_score`: half the parents
weight when both lowercased, trimmed names are non-empty, not the literal
`"nan"`, and token-sort similar at 80 or above. -/
def parentHalf (a b : String) (wt : ℚ) : ℚ :=
  if pyTrim (pyLower a) ≠ "" ∧ pyTrim (pyLower b) ≠ "" ∧
      pyTrim (pyLower a) ≠ "nan" ∧ pyTrim (pyLower b) ≠ "nan" ∧
      80 ≤ token_sort_ratio (pyTrim (pyLower a)) (pyTrim (pyLower b)) then
    wt * (1 / 2)
  else 0

/-- Best of the three name-similarity strategies of `calculate_match_score`:
direct ratio, token-sort ratio, and ratio of the normalized names. -/
def bestNameScore (spName tpName : String) : Nat :=
  max (fuzz_ratio spName tpName)
    (max (token_sort_ratio spName tpName)
      (fuzz_ratio (normalize_name spName) (normalize_name tpName)))

theorem bestNameScore_le_100 (spName tpName : String) :
    bestNameScore spName tpName ≤ 100 :=
  max_le (fuzz_ratio_le_100 _ _)
    (max_le (token_sort_ratio_le_100 _ _) (fuzz_ratio_le_100 _ _))

/-- Name factor of `calculate_match_score`: when both lowercased, trimmed
names are non-empty, the best of direct ratio, token-sort ratio and
normalized-name ratio, scaled onto the name weight; otherwise 0. -/
def nameFactor (sp tp : PersonRow) (w : Weights) : Nat × ℚ :=
  if pyTrim (pyLower (pyStr sp.fullName)) ≠ "" ∧
      pyTrim (pyLower (pyStr tp.fullName)) ≠ "" then
    (bestNameScore (pyTrim (pyLower (pyStr sp.fullName))) (pyTrim (pyLower (pyStr tp.fullName))),
      ((bestNameScore (pyTrim (pyLower (pyStr sp.fullName))) (pyTrim (pyLower (pyStr tp.fullName))) : ℚ) / 100) * w.name)
  else (0, 0)

/-- `calculate_match_score(source_person, target_person, weights)` from
`apps/AllThree.py`: the weighted four-factor score.  Python float arithmetic
is modelled exactly over `ℚ`. -/
def calculate_match_score (sp tp : PersonRow) (w : Weights) : ScoreDetails :=
  let namePair := nameFactor sp tp w
  let birthPair := datePart sp.birthDate tp.birthDate w.birth
  let deathPair := datePart sp.deathDate tp.deathDate w.death
  let parentPoints :=
    parentHalf (pyStr sp.fatherName) (pyStr tp.fatherName) w.parents +
      parentHalf (pyStr sp.motherName) (pyStr tp.motherName) w.parents
  { nameScore := namePair.1
    namePoints := namePair.2
    birthDiff := birthPair.1
    birthPoints := birthPair.2
    deathDiff := deathPair.1
    deathPoints := deathPair.2
    parentPoints := parentPoints
    totalScore := namePair.2 + birthPair.2 + deathPair.2 + parentPoints }

/-- Total score of a pair under the default weights, as the STEP 3 comparison
loop of `apps/AllThree.py` computes it (`calculate_match_score(source_person,
target_person)`). -/
def totalScore (s t : PersonRow) : ℚ :=
  (calculate_match_score s t defaultWeights).totalScore

/-- Best score of a source row over a list of target rows, starting from an
accumulator.  With accumulator `0` this is the unfiltered O(n*m) scan that
the spec states as the baseline semantics of the weighted policy ("missing"
iff the best score among all target candidates is below the threshold). -/
def bestScoreFull (s : PersonRow) : List PersonRow → ℚ → ℚ
  | [], b => b
  | t :: ts, b => bestScoreFull s ts (if totalScore s t > b then totalScore s t else b)

/-- Truthy birth year of a row: `get_year` of its birth date when that is a
nonzero year (`if birth_year:` in Python). -/
def truthyYearOf (t : PersonRow) : Option Int :=
  match get_year t.birthDate with
  | some y => if y = 0 then none else some y
  | none => none

/-- Indices of target rows bucketed under birth year `yr`
(`target_by_year[yr]` in STEP 3 of `apps/AllThree.py`), in dataframe order. -/
def bucketIndices (ts : List PersonRow) (yr : Int) : List Nat :=
  (ts.enum.filter (fun p => truthyYearOf p.2 = some yr)).map (fun p => p.1)

/-- Indices of target rows with no truthy birth year (`target_no_birth`). -/
def noBirthIndices (ts : List PersonRow) : List Nat :=
  (ts.enum.filter (fun p => truthyYearOf p.2 = none)).map (fun p => p.1)

/-- `range(start, start + n)` over integers. -/
def intRange (start : Int) (n : Nat) : List Int :=
  (List.range n).map (fun k => start + (k : Int))

/-- Candidate target indices for one source row in STEP 3: with a truthy
source birth year, the buckets of the 11 years within +-5 plus the rows
without birth year; otherwise every target index. -/
def candidateIndices (s : PersonRow) (ts : List PersonRow) : List Nat :=
  match truthyYearOf s with
  | some y => ((intRange (y - 5) 11).flatMap (fun yr => bucketIndices ts yr)) ++
      noBirthIndices ts
  | none => List.range ts.length

/-- Per-source-row candidate scan of STEP 3: track the best score, breaking
out early as soon as a candidate scores at least 95. -/
def scanRows (s : PersonRow) : List PersonRow → ℚ → ℚ
  | [], b => b
  | t :: ts, b =>
      let sc := totalScore s t
      let best := if sc > b then sc else b
      if sc ≥ 95 then best else scanRows s ts best

/-- Best score the bucketed STEP 3 loop records for one source row. -/
def bucketedBest (s : PersonRow) (ts : List PersonRow) : ℚ :=
  scanRows s ((candidateIndices s ts).filterMap (fun i => ts.get? i)) 0

/-- Collect the (0-based) indices of rows satisfying a predicate, as the
`missing_indices` list of STEP 3 accumulates dataframe indices. -/
def collectMissing (pred : PersonRow → Bool) : List PersonRow → Nat → List Nat
  | [], _ => []
  | s :: rest, i =>
      if pred s then i :: collectMissing pred rest (i + 1)
      else collectMissing pred rest (i + 1)

/-- Missing source rows under the spec's baseline semantics: unfiltered scan
over all target rows, missing iff the best score is below the threshold. -/
def specMissingIndices (src tgt : List PersonRow) (th : ℚ) : List Nat :=
  collectMissing (fun s => decide (bestScoreFull s tgt 0 < th)) src 0

/-- Missing source rows as the bucketed STEP 3 loop of `apps/AllThree.py`
computes them (birth-year buckets, +-5 window, no-birth rows appended,
early exit at score >= 95, missing iff best score is below the threshold). -/
def bucketedMissingIndices (src tgt : List PersonRow) (th : ℚ) : List Nat :=
  collectMissing (fun s => decide (bucketedBest s tgt < th)) src 0

/-- `parse_date(date_str)` from `apps/MissingPeople.py`:
`datetime.strptime(date_str, "%d %b %Y")`.  CPython anchors the generated
regex at the start of the string and rejects unconverted trailing data, so
no leading or trailing whitespace is allowed (internal whitespace runs are,
since a space in the format compiles to `\s+`); `%d` is a 1-2 digit day
(not zero: the regex is `3[01]|[12]\d|0[1-9]|[1-9]`), `%b` an English month
abbreviation matched case-insensitively, and `%Y` exactly four digits; the
day is then validated against the month (and year 0000 rejected) by the
`datetime` constructor.  Any failure raises `ValueError`, returned as
`None`. -/
def parse_date (s : String) : Option PDate :=
  if headIsWs s.data ∨ headIsWs s.data.reverse then none
  else
    match splitWs s with
    | [ds, ms, ys] =>
        match natFromDigits ds, monthNum (pyLower ms), natFromDigits ys with
        | some d, some m, some y =>
            if 1 ≤ ds.length ∧ ds.length ≤ 2 ∧ ys.length = 4 ∧
                1 ≤ y ∧ 1 ≤ d ∧ d ≤ daysInMonth (y : Int) m then
              some { year := (y : Int), month := m, day := d }
            else none
        | _, _, _ => none
    | _ => none

/-- Day number of a calendar date (proleptic Gregorian, days since the civil
epoch), used to model `datetime` subtraction in days. -/
def toDays (d : PDate) : Int :=
  let y : Int := if d.month ≤ 2 then d.year - 1 else d.year
  let era : Int := (if 0 ≤ y then y else y - 399) / 400
  let yoe : Int := y - era * 400
  let mp : Int := ((d.month : Int) + 9) % 12
  let doy : Int := (153 * mp + 2) / 5 + (d.day : Int) - 1
  let doe : Int := yoe * 365 + yoe / 4 - yoe / 100 + doy
  era * 146097 + doe - 719468

/-- Date proximity test of `compare_individuals`: both dates parsed and at
most 365 days apart (`abs((a - b).days) <= 365`). -/
def dateMatchMP : Option PDate → Option PDate → Bool
  | some a, some b => (toDays a - toDays b).natAbs ≤ 365
  | _, _ => false

/-- `' '.join(individual.get('NAME', ['Unknown']))` from
`compare_individuals`. -/
def joinNames (r : Records) : String :=
  " ".intercalate ((lookupR r "NAME").getD ["Unknown"])

/-- `individual.get(tag, ['Unknown'])[0]` from `compare_individuals`.  (The
parser never stores an empty list, so `headD` never supplies its default for
a present tag.) -/
def firstVal (r : Records) (tag : String) : String :=
  ((lookupR r tag).getD ["Unknown"]).headD "Unknown"

def famcOf (r : Records) : List String :=
  (lookupR r "FAMC").getD []

def famsOf (r : Records) : List String :=
  (lookupR r "FAMS").getD []

/-- Non-empty intersection of two value lists, modelling
`set(xs) & set(ys)` being truthy. -/
def overlapL (l1 l2 : List String) : Bool :=
  l1.any (fun x => l2.contains x)

/-- Per-candidate acceptance test of `compare_individuals`
(`apps/MissingPeople.py`): fuzzy name similarity at least 80, at least one
of the birth/death dates within 365 days on both sides, and a shared
`FAMC` or `FAMS` pointer (the code reads children and spouses both from
`FAMS`). -/
def acceptMP (a b : Records) : Bool :=
  (80 ≤ fuzz_ratio (joinNames a) (joinNames b)) &&
    (dateMatchMP (parse_date (firstVal a "BIRTDATE")) (parse_date (firstVal b "BIRTDATE")) ||
      dateMatchMP (parse_date (firstVal a "DEATDATE")) (parse_date (firstVal b "DEATDATE"))) &&
    (overlapL (famcOf a) (famcOf b) || overlapL (famsOf a) (famsOf b) ||
      overlapL (famsOf a) (famsOf b))

/-- Inner loop of `compare_individuals`: scan the target individuals,
stopping at the first acceptable match (`match_found = True; break`). -/
def findMatch (a : Records) : List (String × Records) → Bool
  | [] => false
  | q :: rest => if acceptMP a q.2 then true else findMatch a rest

/-- `compare_individuals(ancestry_individuals, familysearch_individuals)`
from `apps/MissingPeople.py`, restricted to which source individuals are
reported missing (the report-row string formatting is presentation only):
a source individual is kept iff no target individual is accepted. -/
def compare_individuals (src tgt : List (String × Records)) :
    List (String × Records) :=
  src.filter (fun p => ¬ findMatch p.2 tgt)

/-- Modelled from the spec's words (threshold/veto policy (A), spec section
4.3), as the comparison point for claim C2: name similarity is the
case-insensitive, whitespace-trimmed fuzzy ratio, rejected below the
`nameThreshold`; a birth (resp. death) year resolvable on both sides vetoes
the candidate when the difference exceeds `yearTolerance`. -/
def specYearCheck (tol : Nat) : Option Int → Option Int → Bool
  | some y1, some y2 => (y1 - y2).natAbs ≤ tol
  | _, _ => true

def specBirthYear (r : Records) : Option Int :=
  (parse_date (firstVal r "BIRTDATE")).map (fun d => d.year)

def specDeathYear (r : Records) : Option Int :=
  (parse_date (firstVal r "DEATDATE")).map (fun d => d.year)

/-- Modelled from the spec's words (policy (A) candidate acceptance with the
default `nameThreshold = 85`, `yearTolerance = 1`). -/
def specAcceptA (a b : Records) : Bool :=
  (85 ≤ fuzz_ratio (pyTrim (pyLower (joinNames a))) (pyTrim (pyLower (joinNames b)))) &&
    specYearCheck 1 (specBirthYear a) (specBirthYear b) &&
    specYearCheck 1 (specDeathYear a) (specDeathYear b)

/-- Modelled from the spec's words: policy (A) missing report — a source
person with no surviving candidate under `specAcceptA` is missing. -/
def specMissingA (src tgt : List (String × Records)) : List (String × Records) :=
  src.filter (fun p => ¬ tgt.any (fun q => specAcceptA p.2 q.2))

theorem get_some_mem {α : Type} : ∀ (l : List α) (n : Nat) (a : α),
    l.get? n = some a → a ∈ l := by
  intro l
  induction l with
  | nil => intro n a h; cases h
  | cons x xs ih =>
    intro n a h
    cases n with
    | zero => cases h; exact List.mem_cons_self _ _
    | succ m => exact List.mem_cons_of_mem _ (ih m a h)

theorem bestScoreFull_ge_init (s : PersonRow) (ts : List PersonRow) (b : ℚ) :
    b ≤ bestScoreFull s ts b := by
  induction ts generalizing b with
  | nil => simp [bestScoreFull]
  | cons t rest ih =>
    simp only [bestScoreFull]
    refine le_trans ?_ (ih _)
    split
    · exact le_of_lt (by assumption)
    · exact le_refl b

theorem bestScoreFull_ge_mem (s : PersonRow) (ts : List PersonRow) (b : ℚ)
    (t : PersonRow) (ht : t ∈ ts) : totalScore s t ≤ bestScoreFull s ts b := by
  induction ts generalizing b with
  | nil => cases ht
  | cons u rest ih =>
    rcases List.mem_cons.mp ht with h | h
    · subst h
      simp only [bestScoreFull]
      refine le_trans ?_ (bestScoreFull_ge_init s rest _)
      split
      · exact le_refl _
      · exact le_of_not_lt (by assumption)
    · simp only [bestScoreFull]
      exact ih _ h

theorem bestScoreFull_lt_iff (s : PersonRow) (ts : List PersonRow) (b : ℚ) (th : ℚ) :
    bestScoreFull s ts b < th ↔ b < th ∧ ∀ t ∈ ts, totalScore s t < th := by
  induction ts generalizing b with
  | nil => simp [bestScoreFull]
  | cons t rest ih =>
    simp only [bestScoreFull, ih, List.mem_cons]
    constructor
    · rintro ⟨h1, h2⟩
      have hb : b < th ∧ totalScore s t < th := by
        by_cases hgt : totalScore s t > b
        · simp [hgt] at h1; exact ⟨lt_trans hgt h1, h1⟩
        · simp [hgt] at h1; exact ⟨h1, lt_of_le_of_lt (not_lt.mp hgt) h1⟩
      refine ⟨hb.1, ?_⟩
      intro u hu
      rcases hu with h | h
      · subst h; exact hb.2
      · exact h2 u h
    · rintro ⟨hb, hall⟩
      constructor
      · split
        · exact hall t (Or.inl rfl)
        · exact hb
      · intro u hu; exact hall u (Or.inr hu)

theorem scanRows_le (s : PersonRow) (l : List PersonRow) (b bnd : ℚ)
    (hb : b ≤ bnd) (hall : ∀ t ∈ l, totalScore s t ≤ bnd) :
    scanRows s l b ≤ bnd := by
  induction l generalizing b with
  | nil => simpa [scanRows] using hb
  | cons t rest ih =>
    simp only [scanRows]
    have hsc : totalScore s t ≤ bnd := hall t (List.mem_cons_self _ _)
    have hbest : (if totalScore s t > b then totalScore s t else b) ≤ bnd := by
      split <;> assumption
    split
    · exact hbest
    · exact ih _ hbest (fun u hu => hall u (List.mem_cons_of_mem _ hu))

theorem bucketedBest_le (s : PersonRow) (ts : List PersonRow) :
    bucketedBest s ts ≤ bestScoreFull s ts 0 := by
  unfold bucketedBest
  apply scanRows_le
  · exact bestScoreFull_ge_init s ts 0
  · intro t ht
    rcases List.mem_filterMap.mp ht with ⟨i, _, hget⟩
    exact bestScoreFull_ge_mem s ts 0 t (get_some_mem ts i t hget)

theorem collectMissing_mono (p q : PersonRow → Bool)
    (hpq : ∀ s, p s = true → q s = true) :
    ∀ (l : List PersonRow) (i j : Nat),
      j ∈ collectMissing p l i → j ∈ collectMissing q l i := by
  intro l
  induction l with
  | nil => intro i j h; cases h
  | cons s rest ih =>
    intro i j h
    by_cases hp : p s = true
    · have hq := hpq s hp
      simp only [collectMissing, hp, if_true, hq] at h ⊢
      rcases List.mem_cons.mp h with h1 | h1
      · exact h1 ▸ List.mem_cons_self _ _
      · exact List.mem_cons_of_mem _ (ih _ _ h1)
    · simp only [collectMissing, hp, if_false] at h
      by_cases hq : q s = true
      · simp only [collectMissing, hq, if_true]
        exact List.mem_cons_of_mem _ (ih _ _ h)
      · simp only [collectMissing, hq, if_false]
        exact ih _ _ h

theorem findMatch_eq_any (a : Records) (l : List (String × Records)) :
    findMatch a l = l.any (fun q => acceptMP a q.2) := by
  induction l with
  | nil => rfl
  | cons q rest ih =>
    simp only [findMatch, List.any_cons]
    split <;> simp_all

theorem overlapL_self (l : List String) (h : l ≠ []) : overlapL l l = true := by
  cases l with
  | nil => exact absurd rfl h
  | cons x xs => simp [overlapL]

theorem dateMatchMP_self (d : PDate) : dateMatchMP (some d) (some d) = true := by
  simp [dateMatchMP]

/-- C1: every source row reported missing by the unfiltered scan over all
target rows is also reported missing by the birth-year-bucketed STEP 3 loop
of `apps/AllThree.py` (the claim's full equality of the two missing sets is
refuted by `c1_counterexample`; only this inclusion holds — filtering can
only lower a source row's best score, so bucketing can add missing rows but
never remove one). -/
theorem c1_bucketed_missing_superset (src tgt : List PersonRow) (th : ℚ) (i : Nat)
    (h : i ∈ specMissingIndices src tgt th) :
    i ∈ bucketedMissingIndices src tgt th := by
  refine collectMissing_mono _ _ ?_ src 0 i h
  intro s hp
  have h1 : bestScoreFull s tgt 0 < th := of_decide_eq_true hp
  exact decide_eq_true (lt_of_le_of_lt (bucketedBest_le s tgt) h1)

/-- Source row used by the C1 counterexample: birth year 1900. -/
def rowS1 : PersonRow :=
  { idNumber := "S1", fullName := some "John Smith", gender := none,
    birthDate := some "1900-01-01", deathDate := some "1950-01-01",
    fatherName := some "Adam Smith", motherName := some "Eve Jones", fsftid := none }

/-- Target row used by the C1 counterexample: identical except for a birth
year 80 years away, so it is outside every +-5 bucket yet still scores
40 (name) + 25 (death) + 10 (parents) = 75, above the default threshold. -/
def rowT1 : PersonRow :=
  { idNumber := "T1", fullName := some "John Smith", gender := none,
    birthDate := some "1980-01-01", deathDate := some "1950-01-01",
    fatherName := some "Adam Smith", motherName := some "Eve Jones", fsftid := none }

set_option maxRecDepth 40000 in
/-- C1 counterexample: at threshold 70 the bucketed loop reports the source
row missing while the unfiltered scan does not, so the two result sets
differ. -/
theorem c1_counterexample :
    bucketedMissingIndices [rowS1] [rowT1] 70 = [0] ∧
      specMissingIndices [rowS1] [rowT1] 70 = [] := by
  constructor
  · with_unfolding_all decide
  · with_unfolding_all decide

set_option maxRecDepth 40000 in
theorem c1_witness : 0 ∈ bucketedMissingIndices [rowS1] [] 70 :=
  c1_bucketed_missing_superset [rowS1] [] 70 0 (by with_unfolding_all decide)

/-- C5: with a record open and `last_tag_info = (pt, pidx)` pointing at an
existing value `v`, a level-2 `CONC` line appends its value directly (no
separator) and a level-2 `CONT` line appends a newline and its value; on the
claim's concrete inputs, `1 NOTE Hello` + `2 CONC  World` parses to NOTE
value `"Hello World"` (the space after the tag delimiter is preserved) and
`1 NOTE Line1` + `2 CONT Line2` parses to `"Line1\nLine2"`. -/
theorem c5_conc_cont :
    (∀ (st : ParseState) (pt : String) (pidx : Nat) (v w : String) (vs : List String),
      st.lastTag = some (pt, pidx) →
      lookupR st.records pt = some vs →
      vs.get? pidx = some v →
      dispatchTagged st 2 "CONC" w =
        .ok { st with records := setR st.records pt (vs.set pidx (v ++ w)) } ∧
      dispatchTagged st 2 "CONT" w =
        .ok { st with records := setR st.records pt (vs.set pidx (v ++ "\n" ++ w)) }) ∧
    parse_gedcom "0 @I1@ INDI\n1 NOTE Hello\n2 CONC  World" =
      .ok ([("I1", [("NOTE", ["Hello World"])])], []) ∧
    parse_gedcom "0 @I1@ INDI\n1 NOTE Line1\n2 CONT Line2" =
      .ok ([("I1", [("NOTE", ["Line1\nLine2"])])], []) := by
  refine ⟨?_, by with_unfolding_all decide, by with_unfolding_all decide⟩
  intro st pt pidx v w vs hlt hlook hget
  have hget2 : vs[pidx]? = some v := by
    simpa [List.get?_eq_getElem?] using hget
  constructor
  · simp [dispatchTagged, hlt, applyDeep, hlook, hget2]
  · simp [dispatchTagged, hlt, applyDeep, hlook, hget2]

/-- State used to witness the C5 and C6 parser-step theorems: a record is
open and the last level-1 tag is `NOTE` at index 0 with value `"Hello"`. -/
def stWitness : ParseState :=
  { individuals := [], families := [], currentId := some "I1",
    currentType := some "INDI", records := [("NOTE", ["Hello"])],
    lastTag := some ("NOTE", 0) }

theorem c5_witness :
    dispatchTagged stWitness 2 "CONC" " World" =
      .ok { stWitness with records := [("NOTE", ["Hello World"])] } ∧
    dispatchTagged stWitness 2 "CONT" "Line2" =
      .ok { stWitness with records := [("NOTE", ["Hello\nLine2"])] } :=
  ⟨(c5_conc_cont.1 stWitness "NOTE" 0 "Hello" " World" ["Hello"] rfl rfl rfl).1,
   (c5_conc_cont.1 stWitness "NOTE" 0 "Hello" "Line2" ["Hello"] rfl rfl rfl).2⟩

/-- C6: with a record open and a level-1 tag already seen, a deeper line
whose tag is neither `CONC` nor `CONT` appends its value as a new entry of
the synthesized compound tag `{last level-1 tag}_{tag}`, and the result is
the same for every level greater than 1 (the parser keeps only one level of
nesting context); concretely, `1 BIRT` + `2 DATE 4 JUL 1826` stores
`BIRT_DATE = "4 JUL 1826"`. -/
theorem c6_compound_tag :
    (∀ (st : ParseState) (level : Int) (tag value pt : String) (pidx : Nat),
      pyTruthyStr st.currentId = true →
      st.lastTag = some (pt, pidx) →
      tag ≠ "CONC" → tag ≠ "CONT" → 1 < level →
      dispatchTagged st level tag value =
        .ok { st with records := setR st.records (pt ++ "_" ++ tag) (((lookupR st.records (pt ++ "_" ++ tag)).getD []) ++ [value]) }) ∧
    (∀ (st : ParseState) (l1 l2 : Int) (tag value : String),
      1 < l1 → 1 < l2 →
      dispatchTagged st l1 tag value = dispatchTagged st l2 tag value) ∧
    parse_gedcom "0 @I1@ INDI\n1 BIRT\n2 DATE 4 JUL 1826" =
      .ok ([("I1", [("BIRT", [""]), ("BIRT_DATE", ["4 JUL 1826"])])], []) := by
  refine ⟨?_, ?_, by with_unfolding_all decide⟩
  · intro st level tag value pt pidx hopen hlt hconc hcont hlev
    have h1 : level ≠ 1 := by omega
    simp [dispatchTagged, h1, hlev, hlt, applyDeep, hconc, hcont]
  · intro st l1 l2 tag value h1 h2
    have e1 : l1 ≠ 1 := by omega
    have e2 : l2 ≠ 1 := by omega
    simp [dispatchTagged, e1, e2, h1, h2]

theorem c6_witness :
    dispatchTagged stWitness 3 "DATE" "4 JUL 1826" =
      .ok { stWitness with records := [("NOTE", ["Hello"]), ("NOTE_DATE", ["4 JUL 1826"])] } ∧
    dispatchTagged stWitness 2 "DATE" "4 JUL 1826" =
      dispatchTagged stWitness 3 "DATE" "4 JUL 1826" :=
  ⟨c6_compound_tag.1 stWitness 3 "DATE" "4 JUL 1826" "NOTE" 0 rfl rfl
      (by decide) (by decide) (by decide),
   c6_compound_tag.2.1 stWitness 2 3 "DATE" "4 JUL 1826" (by decide) (by decide)⟩

/-- C7: `format_gedcom_date` strips each leading qualifier keyword
(case-insensitively) and reduces `BET ... AND ...` to its first bound before
parsing, and maps the empty string and an absent value to `None` instead of
raising. -/
theorem c7_format_date :
    format_gedcom_date (some "ABT 1850") = some "1850-01-01" ∧
    format_gedcom_date (some "BET 1850 AND 1855") = some "1850-01-01" ∧
    format_gedcom_date (some "") = none ∧
    format_gedcom_date none = none ∧
    format_gedcom_date (some "EST 1850") = some "1850-01-01" ∧
    format_gedcom_date (some "CAL 1850") = some "1850-01-01" ∧
    format_gedcom_date (some "INT 1850") = some "1850-01-01" ∧
    format_gedcom_date (some "BEF 1850") = some "1850-01-01" ∧
    format_gedcom_date (some "AFT 1850") = some "1850-01-01" ∧
    format_gedcom_date (some "FROM 1850") = some "1850-01-01" ∧
    format_gedcom_date (some "TO 1850") = some "1850-01-01" ∧
    format_gedcom_date (some "abt 1850") = some "1850-01-01" ∧
    format_gedcom_date (some "bet 1850 and 1855") = some "1850-01-01" := by
  with_unfolding_all decide

theorem acceptMP_eq_true_iff (a b : Records) :
    acceptMP a b = true ↔
      (80 ≤ fuzz_ratio (joinNames a) (joinNames b) ∧
        (dateMatchMP (parse_date (firstVal a "BIRTDATE"))
            (parse_date (firstVal b "BIRTDATE")) = true ∨
          dateMatchMP (parse_date (firstVal a "DEATDATE"))
            (parse_date (firstVal b "DEATDATE")) = true) ∧
        (overlapL (famcOf a) (famcOf b) = true ∨
          overlapL (famsOf a) (famsOf b) = true)) := by
  simp only [acceptMP, Bool.and_eq_true, Bool.or_eq_true, decide_eq_true_eq]
  tauto

/-- C2 (amended): under `compare_individuals` of `apps/MissingPeople.py`, a
source person is reported missing exactly when no target candidate passes
all three of: raw (case-sensitive) fuzzy name similarity at least the fixed
threshold 80, birth or death dates parsing on both sides no more than 365
days apart, and a shared `FAMC` or `FAMS` pointer; and the scan stops at the
first acceptable candidate.  (The claim's veto semantics with configurable
`nameThreshold = 85` and `yearTolerance = 1` is refuted by
`c2_counterexample`.) -/
theorem c2_missing_characterization (src tgt : List (String × Records))
    (p : String × Records) :
    (p ∈ compare_individuals src tgt ↔
      p ∈ src ∧ ∀ q ∈ tgt,
        ¬(80 ≤ fuzz_ratio (joinNames p.2) (joinNames q.2) ∧
          (dateMatchMP (parse_date (firstVal p.2 "BIRTDATE"))
              (parse_date (firstVal q.2 "BIRTDATE")) = true ∨
            dateMatchMP (parse_date (firstVal p.2 "DEATDATE"))
              (parse_date (firstVal q.2 "DEATDATE")) = true) ∧
          (overlapL (famcOf p.2) (famcOf q.2) = true ∨
            overlapL (famsOf p.2) (famsOf q.2) = true))) ∧
    (∀ (a : Records) (q : String × Records) (rest : List (String × Records)),
      acceptMP a q.2 = true → findMatch a (q :: rest) = true) := by
  constructor
  · rw [compare_individuals, List.mem_filter]
    simp only [findMatch_eq_any, List.any_eq_true, acceptMP_eq_true_iff,
      decide_eq_true_eq, not_exists, not_and]
  · intro a q rest h
    simp [findMatch, h]

/-- Record used by the C2 counterexample: a name but no dates and no family
pointers. -/
def recC2 : Records := [("NAME", ["John /Smith/"])]

/-- C2 counterexample: for two identical one-name individuals, the spec's
threshold/veto policy (name ratio 100 >= 85, no resolvable years, hence no
veto) accepts the candidate and reports nobody missing, while the code
rejects it (no date proximity, no shared family pointer) and reports the
source person missing. -/
theorem c2_counterexample :
    compare_individuals [("I1", recC2)] [("I2", recC2)] = [("I1", recC2)] ∧
      specMissingA [("I1", recC2)] [("I2", recC2)] = [] := by
  constructor
  · with_unfolding_all decide
  · with_unfolding_all decide

theorem c2_witness : ("I1", recC2) ∈ compare_individuals [("I1", recC2)] [] :=
  (c2_missing_characterization [("I1", recC2)] [] ("I1", recC2)).1.mpr
    ⟨List.mem_singleton.mpr rfl, by intro q hq; cases hq⟩

/-- C3 (amended): an identical copy of a record is an accepted match — so
the record is not reported missing — provided its birth or death date parses
in the `%d %b %Y` format and it carries at least one `FAMC` or `FAMS`
pointer (the code also demands a shared family pointer and a date within
tolerance, so a dateless or pointerless identical pair is reported missing,
refuting the claim as stated: see `c3_counterexample`). -/
theorem c3_identical_match (src tgt : List (String × Records)) (i j : String)
    (r : Records) (hmem : (j, r) ∈ tgt)
    (hdate : parse_date (firstVal r "BIRTDATE") ≠ none ∨
      parse_date (firstVal r "DEATDATE") ≠ none)
    (hfam : famcOf r ≠ [] ∨ famsOf r ≠ []) :
    (i, r) ∉ compare_individuals src tgt := by
  intro hin
  have hd := (List.mem_filter.mp hin).2
  have hacc : acceptMP r r = true := by
    rw [acceptMP_eq_true_iff]
    refine ⟨?_, ?_, ?_⟩
    · rw [fuzz_ratio_self]
      omega
    · rcases hdate with h | h
      · rcases Option.ne_none_iff_exists'.mp h with ⟨d, hd2⟩
        exact Or.inl (by rw [hd2]; exact dateMatchMP_self d)
      · rcases Option.ne_none_iff_exists'.mp h with ⟨d, hd2⟩
        exact Or.inr (by rw [hd2]; exact dateMatchMP_self d)
    · rcases hfam with h | h
      · exact Or.inl (overlapL_self _ h)
      · exact Or.inr (overlapL_self _ h)
  have hfm : findMatch r tgt = true := by
    rw [findMatch_eq_any]
    exact List.any_eq_true.mpr ⟨(j, r), hmem, hacc⟩
  simp [hfm] at hd

/-- Record used by the C3 counterexample: name, parseable birth and death
dates, but no `FAMC`/`FAMS` pointer. -/
def recC3 : Records :=
  [("NAME", ["John /Smith/"]), ("BIRTDATE", ["1 JAN 1900"]),
    ("DEATDATE", ["1 JAN 1980"])]

/-- C3 counterexample: a record with name, birth date and death date,
compared against an identical copy, is still reported missing because the
two share no family pointer. -/
theorem c3_counterexample :
    compare_individuals [("I1", recC3)] [("I2", recC3)] = [("I1", recC3)] := by
  with_unfolding_all decide

/-- Record used by the C3 witness: as `recC3` plus a `FAMC` pointer. -/
def recC3f : Records :=
  [("NAME", ["John /Smith/"]), ("BIRTDATE", ["1 JAN 1900"]),
    ("DEATDATE", ["1 JAN 1980"]), ("FAMC", ["@F1@"])]

theorem c3_witness :
    ("I1", recC3f) ∉ compare_individuals [("I1", recC3f)] [("I2", recC3f)] :=
  c3_identical_match [("I1", recC3f)] [("I2", recC3f)] "I1" "I2" recC3f
    (List.mem_singleton.mpr rfl)
    (Or.inl (by with_unfolding_all decide))
    (Or.inl (by with_unfolding_all decide))

theorem datePart_both_years (a b : Option String) (wt : ℚ) (y1 y2 : Int)
    (h1 : get_year a = some y1) (h2 : get_year b = some y2)
    (n1 : y1 ≠ 0) (n2 : y2 ≠ 0) :
    (datePart a b wt).2 =
      (if (y1 - y2).natAbs = 0 then wt
       else if (y1 - y2).natAbs = 1 then wt * (8 / 10)
       else if (y1 - y2).natAbs = 2 then wt * (6 / 10)
       else if (y1 - y2).natAbs ≤ 5 then wt * (3 / 10)
       else 0) := by
  cases a with
  | none => simp [get_year] at h1
  | some sa =>
    cases b with
    | none => simp [get_year] at h2
    | some sb =>
      simp only [datePart, h1, h2]
      rw [if_pos ⟨n1, n2⟩]

theorem datePart_absent (a b : Option String) (wt : ℚ)
    (h : get_year a = none ∨ get_year b = none ∨
      get_year a = some 0 ∨ get_year b = some 0) :
    (datePart a b wt).2 = 0 := by
  cases a with
  | none => rfl
  | some sa =>
    cases b with
    | none => rfl
    | some sb =>
      simp only [datePart]
      cases hga : get_year (some sa) with
      | none => rfl
      | some v1 =>
        cases hgb : get_year (some sb) with
        | none => rfl
        | some v2 =>
          rcases h with h | h | h | h
          · rw [hga] at h; cases h
          · rw [hgb] at h; cases h
          · rw [hga] at h
            have : v1 = 0 := by cases h; rfl
            simp [this]
          · rw [hgb] at h
            have : v2 = 0 := by cases h; rfl
            simp [this]

theorem nameFactor_bounds (sp tp : PersonRow) (w : Weights) (hw : 0 ≤ w.name) :
    0 ≤ (nameFactor sp tp w).2 ∧ (nameFactor sp tp w).2 ≤ w.name := by
  unfold nameFactor
  split_ifs with h
  · have hle := bestNameScore_le_100 (pyTrim (pyLower (pyStr sp.fullName)))
      (pyTrim (pyLower (pyStr tp.fullName)))
    set best := bestNameScore (pyTrim (pyLower (pyStr sp.fullName)))
      (pyTrim (pyLower (pyStr tp.fullName)))
    have hcast : (best : ℚ) ≤ 100 := by exact_mod_cast hle
    have hbnn : (0 : ℚ) ≤ (best : ℚ) := by positivity
    constructor
    · apply mul_nonneg _ hw
      positivity
    · have hstep : (best : ℚ) / 100 * w.name ≤ 100 / 100 * w.name := by
        apply mul_le_mul_of_nonneg_right _ hw
        linarith
      have hone : (100 : ℚ) / 100 * w.name = w.name := by norm_num
      linarith
  · simp [hw]

theorem datePart_bounds (a b : Option String) (wt : ℚ) (hw : 0 ≤ wt) :
    0 ≤ (datePart a b wt).2 ∧ (datePart a b wt).2 ≤ wt := by
  rcases hga : get_year a with _ | y1
  · rw [datePart_absent a b wt (Or.inl hga)]
    exact ⟨le_refl 0, hw⟩
  · rcases hgb : get_year b with _ | y2
    · rw [datePart_absent a b wt (Or.inr (Or.inl hgb))]
      exact ⟨le_refl 0, hw⟩
    · by_cases n1 : y1 = 0
      · subst n1
        rw [datePart_absent a b wt (Or.inr (Or.inr (Or.inl hga)))]
        exact ⟨le_refl 0, hw⟩
      · by_cases n2 : y2 = 0
        · subst n2
          rw [datePart_absent a b wt (Or.inr (Or.inr (Or.inr hgb)))]
          exact ⟨le_refl 0, hw⟩
        · rw [datePart_both_years a b wt y1 y2 hga hgb n1 n2]
          split_ifs <;> constructor <;> linarith

theorem parentHalf_bounds (x y : String) (wt : ℚ) (hw : 0 ≤ wt) :
    0 ≤ parentHalf x y wt ∧ parentHalf x y wt ≤ wt * (1 / 2) := by
  unfold parentHalf
  split_ifs <;> constructor <;> linarith

/-- C4: in the weighted scoring policy, the birth-year factor (and the
death-year factor independently) is scored only when both sides resolve to
a truthy year, contributing the full weight at difference 0, 0.8x at 1,
0.6x at 2, 0.3x up to 5 and 0 beyond; an absent or unresolvable year on
either side contributes 0 without vetoing — the total remains the sum of
the four factors. -/
theorem c4_year_factor (sp tp : PersonRow) (w : Weights) :
    (∀ y1 y2 : Int, get_year sp.birthDate = some y1 → get_year tp.birthDate = some y2 →
      y1 ≠ 0 → y2 ≠ 0 →
      (calculate_match_score sp tp w).birthPoints =
        (if (y1 - y2).natAbs = 0 then w.birth
         else if (y1 - y2).natAbs = 1 then w.birth * (8 / 10)
         else if (y1 - y2).natAbs = 2 then w.birth * (6 / 10)
         else if (y1 - y2).natAbs ≤ 5 then w.birth * (3 / 10)
         else 0)) ∧
    ((get_year sp.birthDate = none ∨ get_year tp.birthDate = none ∨
        get_year sp.birthDate = some 0 ∨ get_year tp.birthDate = some 0) →
      (calculate_match_score sp tp w).birthPoints = 0) ∧
    (∀ y1 y2 : Int, get_year sp.deathDate = some y1 → get_year tp.deathDate = some y2 →
      y1 ≠ 0 → y2 ≠ 0 →
      (calculate_match_score sp tp w).deathPoints =
        (if (y1 - y2).natAbs = 0 then w.death
         else if (y1 - y2).natAbs = 1 then w.death * (8 / 10)
         else if (y1 - y2).natAbs = 2 then w.death * (6 / 10)
         else if (y1 - y2).natAbs ≤ 5 then w.death * (3 / 10)
         else 0)) ∧
    ((get_year sp.deathDate = none ∨ get_year tp.deathDate = none ∨
        get_year sp.deathDate = some 0 ∨ get_year tp.deathDate = some 0) →
      (calculate_match_score sp tp w).deathPoints = 0) ∧
    (calculate_match_score sp tp w).totalScore =
      (calculate_match_score sp tp w).namePoints +
        (calculate_match_score sp tp w).birthPoints +
        (calculate_match_score sp tp w).deathPoints +
        (calculate_match_score sp tp w).parentPoints := by
  have hb : (calculate_match_score sp tp w).birthPoints =
      (datePart sp.birthDate tp.birthDate w.birth).2 := rfl
  have hd : (calculate_match_score sp tp w).deathPoints =
      (datePart sp.deathDate tp.deathDate w.death).2 := rfl
  refine ⟨?_, ?_, ?_, ?_, rfl⟩
  · intro y1 y2 h1 h2 n1 n2
    rw [hb]
    exact datePart_both_years _ _ _ y1 y2 h1 h2 n1 n2
  · intro h
    rw [hb]
    exact datePart_absent _ _ _ h
  · intro y1 y2 h1 h2 n1 n2
    rw [hd]
    exact datePart_both_years _ _ _ y1 y2 h1 h2 n1 n2
  · intro h
    rw [hd]
    exact datePart_absent _ _ _ h

/-- Source row used by the C4 witness: birth 1900, no death date. -/
def rowC4s : PersonRow :=
  { idNumber := "A", fullName := some "Ann Lee", gender := none,
    birthDate := some "1900-01-01", deathDate := none,
    fatherName := some "", motherName := some "", fsftid := none }

/-- Target row used by the C4 witness: birth 1901, no death date. -/
def rowC4t : PersonRow :=
  { idNumber := "B", fullName := some "Ann Lee", gender := none,
    birthDate := some "1901-01-01", deathDate := none,
    fatherName := some "", motherName := some "", fsftid := none }

set_option maxRecDepth 40000 in
theorem c4_witness :
    (calculate_match_score rowC4s rowC4t defaultWeights).birthPoints = 20 ∧
      (calculate_match_score rowC4s rowC4t defaultWeights).deathPoints = 0 := by
  have h := c4_year_factor rowC4s rowC4t defaultWeights
  constructor
  · have h1 := h.1 1900 1901 (by with_unfolding_all decide)
      (by with_unfolding_all decide) (by decide) (by decide)
    rw [h1]
    norm_num [defaultWeights]
  · exact h.2.2.2.1 (Or.inl rfl)

/-- C10: with the default weights, the total score is the sum of the four
factor contributions, each factor lies between 0 and its weight, and the
total lies between 0 and 100. -/
theorem c10_score_bounds (sp tp : PersonRow) :
    (calculate_match_score sp tp defaultWeights).totalScore =
      (calculate_match_score sp tp defaultWeights).namePoints +
        (calculate_match_score sp tp defaultWeights).birthPoints +
        (calculate_match_score sp tp defaultWeights).deathPoints +
        (calculate_match_score sp tp defaultWeights).parentPoints ∧
    0 ≤ (calculate_match_score sp tp defaultWeights).namePoints ∧
    (calculate_match_score sp tp defaultWeights).namePoints ≤ 40 ∧
    0 ≤ (calculate_match_score sp tp defaultWeights).birthPoints ∧
    (calculate_match_score sp tp defaultWeights).birthPoints ≤ 25 ∧
    0 ≤ (calculate_match_score sp tp defaultWeights).deathPoints ∧
    (calculate_match_score sp tp defaultWeights).deathPoints ≤ 25 ∧
    0 ≤ (calculate_match_score sp tp defaultWeights).parentPoints ∧
    (calculate_match_score sp tp defaultWeights).parentPoints ≤ 10 ∧
    0 ≤ (calculate_match_score sp tp defaultWeights).totalScore ∧
    (calculate_match_score sp tp defaultWeights).totalScore ≤ 100 := by
  have hn : (calculate_match_score sp tp defaultWeights).namePoints =
      (nameFactor sp tp defaultWeights).2 := rfl
  have hb : (calculate_match_score sp tp defaultWeights).birthPoints =
      (datePart sp.birthDate tp.birthDate defaultWeights.birth).2 := rfl
  have hd : (calculate_match_score sp tp defaultWeights).deathPoints =
      (datePart sp.deathDate tp.deathDate defaultWeights.death).2 := rfl
  have hp : (calculate_match_score sp tp defaultWeights).parentPoints =
      parentHalf (pyStr sp.fatherName) (pyStr tp.fatherName) defaultWeights.parents +
        parentHalf (pyStr sp.motherName) (pyStr tp.motherName) defaultWeights.parents := rfl
  have ht : (calculate_match_score sp tp defaultWeights).totalScore =
      (calculate_match_score sp tp defaultWeights).namePoints +
        (calculate_match_score sp tp defaultWeights).birthPoints +
        (calculate_match_score sp tp defaultWeights).deathPoints +
        (calculate_match_score sp tp defaultWeights).parentPoints := rfl
  have hwname : (0 : ℚ) ≤ defaultWeights.name := by norm_num [defaultWeights]
  have hwb : (0 : ℚ) ≤ defaultWeights.birth := by norm_num [defaultWeights]
  have hwd : (0 : ℚ) ≤ defaultWeights.death := by norm_num [defaultWeights]
  have hwp : (0 : ℚ) ≤ defaultWeights.parents := by norm_num [defaultWeights]
  obtain ⟨hn0, hn1⟩ := nameFactor_bounds sp tp defaultWeights hwname
  obtain ⟨hb0, hb1⟩ := datePart_bounds sp.birthDate tp.birthDate defaultWeights.birth hwb
  obtain ⟨hd0, hd1⟩ := datePart_bounds sp.deathDate tp.deathDate defaultWeights.death hwd
  obtain ⟨hpf0, hpf1⟩ :=
    parentHalf_bounds (pyStr sp.fatherName) (pyStr tp.fatherName) defaultWeights.parents hwp
  obtain ⟨hpm0, hpm1⟩ :=
    parentHalf_bounds (pyStr sp.motherName) (pyStr tp.motherName) defaultWeights.parents hwp
  have hwn40 : defaultWeights.name = 40 := rfl
  have hwb25 : defaultWeights.birth = 25 := rfl
  have hwd25 : defaultWeights.death = 25 := rfl
  have hwp10 : defaultWeights.parents = 10 := rfl
  refine ⟨ht, ?_, ?_, ?_, ?_, ?_, ?_, ?_, ?_, ?_, ?_⟩
  · rw [hn]; linarith
  · rw [hn]; linarith
  · rw [hb]; linarith
  · rw [hb]; linarith
  · rw [hd]; linarith
  · rw [hd]; linarith
  · rw [hp]; linarith
  · rw [hp]; linarith
  · rw [ht, hn, hb, hd, hp]; linarith
  · rw [ht, hn, hb, hd, hp]; linarith

/-- C8: for a source row whose (lowercased, trimmed) name is empty, the name
factor contributes 0 points (and name score 0) against every target row and
any weights, so under the weighted policy the row's best full-scan score is
below the threshold — i.e. the row is reported missing — unless some target
row reaches the threshold on the date and parent factors alone. -/
theorem c8_no_name (sp : PersonRow) (ts : List PersonRow) (th : ℚ)
    (hname : pyTrim (pyLower (pyStr sp.fullName)) = "") (hth : 0 < th) :
    (∀ (tp : PersonRow) (w : Weights),
      (calculate_match_score sp tp w).namePoints = 0 ∧
        (calculate_match_score sp tp w).nameScore = 0) ∧
    (bestScoreFull sp ts 0 < th ↔
      ∀ tp ∈ ts,
        (calculate_match_score sp tp defaultWeights).birthPoints +
          (calculate_match_score sp tp defaultWeights).deathPoints +
          (calculate_match_score sp tp defaultWeights).parentPoints < th) ∧
    (specMissingIndices [sp] ts th = [0] ↔
      ∀ tp ∈ ts,
        (calculate_match_score sp tp defaultWeights).birthPoints +
          (calculate_match_score sp tp defaultWeights).deathPoints +
          (calculate_match_score sp tp defaultWeights).parentPoints < th) := by
  have hnf : ∀ (tp : PersonRow) (w : Weights), nameFactor sp tp w = (0, 0) := by
    intro tp w
    unfold nameFactor
    rw [if_neg]
    intro hcon
    exact hcon.1 hname
  have hpts : ∀ (tp : PersonRow) (w : Weights),
      (calculate_match_score sp tp w).namePoints = 0 ∧
        (calculate_match_score sp tp w).nameScore = 0 := by
    intro tp w
    constructor
    · show (nameFactor sp tp w).2 = 0
      rw [hnf]
    · show (nameFactor sp tp w).1 = 0
      rw [hnf]
  have htot : ∀ tp : PersonRow, totalScore sp tp =
      (calculate_match_score sp tp defaultWeights).birthPoints +
        (calculate_match_score sp tp defaultWeights).deathPoints +
        (calculate_match_score sp tp defaultWeights).parentPoints := by
    intro tp
    have h0 := (hpts tp defaultWeights).1
    have ht : totalScore sp tp =
        (calculate_match_score sp tp defaultWeights).namePoints +
          (calculate_match_score sp tp defaultWeights).birthPoints +
          (calculate_match_score sp tp defaultWeights).deathPoints +
          (calculate_match_score sp tp defaultWeights).parentPoints := rfl
    rw [ht, h0]
    ring
  have hiff : bestScoreFull sp ts 0 < th ↔
      ∀ tp ∈ ts,
        (calculate_match_score sp tp defaultWeights).birthPoints +
          (calculate_match_score sp tp defaultWeights).deathPoints +
          (calculate_match_score sp tp defaultWeights).parentPoints < th := by
    rw [bestScoreFull_lt_iff]
    constructor
    · rintro ⟨_, h2⟩ tp htp
      rw [← htot tp]
      exact h2 tp htp
    · intro h
      exact ⟨hth, fun tp htp => by rw [htot tp]; exact h tp htp⟩
  refine ⟨hpts, hiff, ?_⟩
  have hspec : specMissingIndices [sp] ts th =
      if bestScoreFull sp ts 0 < th then [0] else [] := by
    simp [specMissingIndices, collectMissing]
  rw [hspec]
  by_cases hb : bestScoreFull sp ts 0 < th
  · rw [if_pos hb]
    exact ⟨fun _ => hiff.mp hb, fun _ => rfl⟩
  · rw [if_neg hb]
    constructor
    · intro h0
      cases h0
    · intro hr
      exact absurd (hiff.mpr hr) hb

/-- Source row used by the C8 witness: empty name. -/
def rowC8s : PersonRow :=
  { idNumber := "S", fullName := some "", gender := none,
    birthDate := some "1900-01-01", deathDate := some "1950-01-01",
    fatherName := some "", motherName := some "", fsftid := none }

/-- Target row used by the C8 witness. -/
def rowC8t : PersonRow :=
  { idNumber := "T", fullName := some "Ann Lee", gender := none,
    birthDate := some "1900-01-01", deathDate := some "1950-01-01",
    fatherName := some "", motherName := some "", fsftid := none }

set_option maxRecDepth 40000 in
theorem c8_witness : specMissingIndices [rowC8s] [rowC8t] 70 = [0] :=
  (c8_no_name rowC8s [rowC8t] 70 (by with_unfolding_all decide)
      (by with_unfolding_all decide)).2.2.mpr
    (by
      intro tp htp
      rcases List.mem_singleton.mp htp with rfl
      with_unfolding_all decide)

theorem rowFor_fatherName (inds fams : List (String × Records))
    (indId : String) (data : Records) :
    (rowFor inds fams indId data).fatherName =
      get_person_name inds
        (if stripAts (orEmpty (optFirst data "FAMC")) ≠ "" then
          some (stripAts (orEmpty (optFirst
            ((lookupA fams (stripAts (orEmpty (optFirst data "FAMC")))).getD []) "HUSB")))
        else none) := rfl

theorem rowFor_motherName (inds fams : List (String × Records))
    (indId : String) (data : Records) :
    (rowFor inds fams indId data).motherName =
      get_person_name inds
        (if stripAts (orEmpty (optFirst data "FAMC")) ≠ "" then
          some (stripAts (orEmpty (optFirst
            ((lookupA fams (stripAts (orEmpty (optFirst data "FAMC")))).getD []) "WIFE")))
        else none) := rfl

theorem get_person_name_empty (inds : List (String × Records)) :
    get_person_name inds (some "") = none := by
  simp [get_person_name]

theorem get_person_name_missing (inds : List (String × Records)) (s : String)
    (hs : s ≠ "") (hmiss : lookupA inds (stripAts s) = none) :
    get_person_name inds (some s) = some "" := by
  have h1 : get_person_name inds (some s) =
      (if s = "" then none
       else some (String.mk ((match lookupR ((lookupA inds (stripAts s)).getD []) "NAME" with
         | some (v :: _) => v
         | _ => "").data.filter (fun c => c ≠ '/')))) := rfl
  rw [h1, if_neg hs, hmiss]
  rfl

/-- C9 (amended): in `generate_individual_dataset`, a missing or empty
`FAMC` pointer and a `FAMC` pointing at a non-existent family both resolve
both parent names to `None`; but a dangling `HUSB`/`WIFE` pointer on an
existing family resolves the parent name to the empty string `""`, not
`None` (refuting the claim's "absent/None" for that case: see
`c9_counterexample`); in every case the projection is total — one row per
individual, no error. -/
theorem c9_dangling_refs :
    (∀ (inds fams : List (String × Records)) (indId : String) (data : Records),
      stripAts (orEmpty (optFirst data "FAMC")) = "" →
      (rowFor inds fams indId data).fatherName = none ∧
        (rowFor inds fams indId data).motherName = none) ∧
    (∀ (inds fams : List (String × Records)) (indId : String) (data : Records),
      stripAts (orEmpty (optFirst data "FAMC")) ≠ "" →
      lookupA fams (stripAts (orEmpty (optFirst data "FAMC"))) = none →
      (rowFor inds fams indId data).fatherName = none ∧
        (rowFor inds fams indId data).motherName = none) ∧
    (∀ (inds fams : List (String × Records)) (indId : String) (data fd : Records),
      stripAts (orEmpty (optFirst data "FAMC")) ≠ "" →
      lookupA fams (stripAts (orEmpty (optFirst data "FAMC"))) = some fd →
      (stripAts (orEmpty (optFirst fd "HUSB")) ≠ "" →
        lookupA inds (stripAts (stripAts (orEmpty (optFirst fd "HUSB")))) = none →
        (rowFor inds fams indId data).fatherName = some "") ∧
      (stripAts (orEmpty (optFirst fd "WIFE")) ≠ "" →
        lookupA inds (stripAts (stripAts (orEmpty (optFirst fd "WIFE")))) = none →
        (rowFor inds fams indId data).motherName = some "")) ∧
    (∀ (inds fams : List (String × Records)),
      (generate_individual_dataset inds fams).length = inds.length) := by
  refine ⟨?_, ?_, ?_, ?_⟩
  · intro inds fams indId data hf
    constructor
    · rw [rowFor_fatherName, hf]
      simp [get_person_name]
    · rw [rowFor_motherName, hf]
      simp [get_person_name]
  · intro inds fams indId data hne hmiss
    constructor
    · rw [rowFor_fatherName, if_pos hne, hmiss]
      exact get_person_name_empty inds
    · rw [rowFor_motherName, if_pos hne, hmiss]
      exact get_person_name_empty inds
  · intro inds fams indId data fd hne hfd
    constructor
    · intro hh hmiss
      rw [rowFor_fatherName, if_pos hne, hfd]
      exact get_person_name_missing inds _ hh hmiss
    · intro hw hmiss
      rw [rowFor_motherName, if_pos hne, hfd]
      exact get_person_name_missing inds _ hw hmiss
  · intro inds fams
    exact List.length_map _ _

/-- Individuals mapping of the C9 counterexample: `I1` has a `FAMC` pointer
to family `F1`. -/
def inds9 : List (String × Records) := [("I1", [("FAMC", ["@F1@"])])]

/-- Families mapping of the C9 counterexample: `F1` has a dangling `HUSB`
pointer `@I99@` and no `WIFE`. -/
def fams9 : List (String × Records) := [("F1", [("HUSB", ["@I99@"])])]

/-- C9 counterexample: the dangling `HUSB` pointer projects to the
empty-string father name `some ""`, not to `none` as the claim states
(while the absent `WIFE` projects to `none`). -/
theorem c9_counterexample :
    (generate_individual_dataset inds9 fams9).map
        (fun r => (r.fatherName, r.motherName)) = [(some "", none)] ∧
      (some "" : Option String) ≠ none := by
  constructor
  · with_unfolding_all decide
  · intro h
    cases h

theorem c9_witness :
    (rowFor inds9 fams9 "I1" [("FAMC", ["@F1@"])]).fatherName = some "" ∧
      (rowFor [] [] "I2" []).fatherName = none :=
  ⟨(c9_dangling_refs.2.2.1 inds9 fams9 "I1" [("FAMC", ["@F1@"])]
        [("HUSB", ["@I99@"])] (by decide) (by decide)).1 (by decide) (by decide),
    (c9_dangling_refs.1 [] [] "I2" [] rfl).1⟩
